import Mathlib

/-!
Verification of the rule-based course-assistant responder (`chatbot.py`).

The embedding models strings as Lean `String`s (lists of `Char`), with the
Python text primitives restricted to their ASCII behaviour, which is the
only range exercised by the intent table:
  - `str.lower` is modelled by `Char.toLower` (maps `A`-`Z` to `a`-`z`);
  - `str.strip` drops leading and trailing whitespace characters;
  - the regex class `\w` is modelled by `isWordChar` (alphanumeric or
    underscore) and `\s` by `isSpaceChar`;
  - the Python substring test `pattern in text` is `containsSub`.
The mutable `conversation_history` list is threaded explicitly: `chat`
takes the current history (and the timestamp string produced by
`datetime.now().strftime`) and returns the new history with the reply.
The dictionary lookup `self.intents[intent]` can fail in Python (KeyError),
so `generate_response` returns an `Option`, `none` being the error branch.
-/

namespace Chatbot

/-- Character class of the regex `\w`: letters, digits, underscore. -/
def isWordChar (c : Char) : Bool := c.isAlphanum || c == '_'

/-- Character class of the regex `\s` and of `str.strip`: whitespace. -/
def isSpaceChar (c : Char) : Bool := c.isWhitespace

/-- Characters kept by the regex substitution step: the class `[^\w\s]` is deleted. -/
def keepChar (c : Char) : Bool := isWordChar c || isSpaceChar c

/-- Python `str.strip`: drop leading and trailing whitespace. -/
def stripChars (l : List Char) : List Char :=
  ((l.dropWhile isSpaceChar).reverse.dropWhile isSpaceChar).reverse

/-- Does `pat` occur at the head of `hay`? -/
def leadsWith : List Char → List Char → Bool
  | [], _ => true
  | _ :: _, [] => false
  | p :: ps, h :: hs => (p == h) && leadsWith ps hs

/-- Does `pat` occur anywhere in `hay` (Python `pat in hay`)? -/
def occursIn : List Char → List Char → Bool
  | pat, [] => pat.isEmpty
  | pat, h :: hs => leadsWith pat (h :: hs) || occursIn pat hs

/-- Python substring containment `pat in hay`. -/
def containsSub (hay pat : String) : Bool := occursIn pat.data hay.data

/-- One intent table entry: keyword patterns and canned responses. -/
structure IntentData where
  patterns : List String
  responses : List String
deriving DecidableEq

/-- The static intent table of `CourseAssistantBot.__init__`, in its
declaration (= Python dict insertion) order. -/
def intents : List (String × IntentData) := [
  ("greeting",
    { patterns := ["hello", "hi", "hey", "greetings", "good morning", "good afternoon"],
      responses := [
        "Hello! I\x27m your AI Course Assistant. How can I help you today?",
        "Hi there! Ask me anything about AI courses and programming.",
        "Greetings! I\x27m here to help with your AI course questions."] }),
  ("course_info",
    { patterns := ["course", "what is dai011", "programming for ai", "subject", "module"],
      responses := [
        "DAI011: Programming for AI is a course that teaches Python programming fundamentals with a focus on AI and ML applications. You\x27ll learn data handling, basic algorithms, and how to use AI libraries.",
        "This course covers Python basics, data analysis with Pandas, machine learning with scikit-learn, and building simple AI applications."] }),
  ("assessment",
    { patterns := ["cat", "exam", "assessment", "test", "marks", "grade", "evaluation"],
      responses := [
        "The course assessment includes Continuous Assessment Tests (CATs) worth 30% and a final exam worth 70%. CAT 2 focuses on GitHub workflow and a Python AI project.",
        "Your CAT 2 is worth 20% of continuous assessment (40 marks total). It includes GitHub setup, a Python project, and documentation."] }),
  ("libraries",
    { patterns := ["library", "libraries", "package", "pandas", "numpy", "scikit", "tools"],
      responses := [
        "Common AI/ML libraries in Python include: Pandas (data manipulation), NumPy (numerical computing), scikit-learn (machine learning), Matplotlib (visualization), and TensorFlow/PyTorch (deep learning).",
        "For this course, you\x27ll mainly use Pandas for data analysis, NumPy for arrays, and scikit-learn for basic machine learning models."] }),
  ("help_project",
    { patterns := ["help", "project", "assignment", "stuck", "how to", "guide"],
      responses := [
        "For your project: 1) Set up GitHub repository, 2) Choose a project option (chatbot, data analyzer, or ML model), 3) Write clean, commented code, 4) Document everything with screenshots. Need help with a specific part?",
        "I can help! Break your project into small steps: start with GitHub setup, then write basic code, test it, commit changes regularly, and finally write your report with screenshots."] }),
  ("github",
    { patterns := ["github", "git", "repository", "commit", "push", "version control"],
      responses := [
        "GitHub is a platform for version control using Git. Basic workflow: 1) git add (stage files), 2) git commit -m \x27message\x27 (save changes), 3) git push (upload to GitHub). Make at least 3 commits showing your progress!",
        "For CAT 2, create a public repository named \x27AI_Programming_Project\x27, add a README, and commit your code incrementally with clear messages like \x27Initial setup\x27, \x27Added data handling\x27, \x27Final implementation\x27."] }),
  ("thanks",
    { patterns := ["thank", "thanks", "appreciate", "helpful"],
      responses := [
        "You\x27re welcome! Good luck with your project!",
        "Happy to help! Feel free to ask if you have more questions.",
        "Glad I could assist! Best wishes with your coursework!"] }),
  ("goodbye",
    { patterns := ["bye", "goodbye", "see you", "exit", "quit"],
      responses := [
        "Goodbye! Good luck with your studies!",
        "See you later! Feel free to come back anytime.",
        "Take care! All the best with your AI projects!"] })]

/-- Character-level body of `preprocess_input`: lowercase, strip, then
remove every character that is neither a word character nor whitespace. -/
def preprocessChars (l : List Char) : List Char :=
  (stripChars (l.map Char.toLower)).filter keepChar

/-- The normalizer `CourseAssistantBot.preprocess_input`. -/
def preprocess_input (s : String) : String :=
  String.mk (preprocessChars s.data)

/-- Does the normalized input contain some pattern of this intent? -/
def intentMatches (s : String) (d : IntentData) : Bool :=
  d.patterns.any (fun p => containsSub s p)

/-- The intent matcher `CourseAssistantBot.identify_intent`: first intent in
table order with a matching pattern, else the sentinel. -/
def identify_intent (user_input : String) : String :=
  match intents.find? (fun kv => intentMatches user_input kv.2) with
  | some kv => kv.1
  | none => "unknown"

/-- The fixed fallback reply for the `unknown` sentinel. -/
def fallbackResponse : String :=
  "I\x27m not sure I understand. I can help with: course information, assessments, Python libraries, project guidance, and GitHub. Try asking about any of these topics!"

/-- The response selector `CourseAssistantBot.generate_response`. `none`
models the Python KeyError / IndexError branch of the lookup
`self.intents[intent].responses[0]`. -/
def generate_response (intent : String) : Option String :=
  if intent = "unknown" then some fallbackResponse
  else match intents.find? (fun kv => kv.1 == intent) with
    | some kv => kv.2.responses.head?
    | none => none

/-- One entry of `conversation_history` after a completed `chat` call:
`time`/`user` are stored first, `bot`/`intent` are filled in before
`chat` returns. -/
structure Turn where
  time : String
  user : String
  bot : String
  intent : String
deriving DecidableEq

/-- The responder state: the `conversation_history` list. -/
abbrev BotState := List Turn

/-- The main entry point `CourseAssistantBot.chat`. `now` is the timestamp
string taken from the clock; the net state effect of the Python code
(append a partial dict, then set its `bot` and `intent` keys) is the
append of one completed `Turn`. -/
def chat (history : BotState) (now : String) (user_input : String) :
    Option (BotState × String) :=
  let cleaned := preprocess_input user_input
  let intent := identify_intent cleaned
  match generate_response intent with
  | some response =>
      some (history ++ [{ time := now, user := user_input,
                          bot := response, intent := intent }], response)
  | none => none

/-- Python `intent_counts[intent] = intent_counts.get(intent, 0) + 1` on an
insertion-ordered dict, modelled as an association list. -/
def bump : List (String × Nat) → String → List (String × Nat)
  | [], k => [(k, 1)]
  | (k0, n) :: rest, k =>
      if k0 = k then (k0, n + 1) :: rest else (k0, n) :: bump rest k

/-- `CourseAssistantBot.get_statistics`: total message count and the
intent distribution (`entry.get(intent, unknown)` is `t.intent`,
since every completed `Turn` carries its intent). -/
def get_statistics (history : BotState) : Nat × List (String × Nat) :=
  (history.length, history.foldl (fun acc t => bump acc t.intent) [])

/-- Sum of the counts of an intent distribution. -/
def sumCounts (counts : List (String × Nat)) : Nat :=
  (counts.map Prod.snd).sum

/-- Run `chat` over a list of (timestamp, input) pairs. -/
def chatRun : BotState → List (String × String) → Option BotState
  | st, [] => some st
  | st, (now, s) :: rest =>
      match chat st now s with
      | some (st2, _) => chatRun st2 rest
      | none => none

theorem toNat_ofNat_valid (n : Nat) (h : n.isValidChar) : (Char.ofNat n).toNat = n := by
  rw [Char.ofNat, dif_pos h]
  rfl

theorem toLower_toLower (c : Char) : c.toLower.toLower = c.toLower := by
  unfold Char.toLower
  by_cases h : c.toNat ≥ 65 ∧ c.toNat ≤ 90
  · rw [if_pos h]
    have hv : Nat.isValidChar (c.toNat + 32) := Or.inl (by omega)
    rw [toNat_ofNat_valid _ hv, if_neg (by omega)]
  · rw [if_neg h, if_neg h]

theorem dropWhile_head_or_nil {α : Type} (p : α → Bool) (l : List α) :
    l.dropWhile p = [] ∨ ∃ a t, l.dropWhile p = a :: t ∧ p a = false := by
  induction l with
  | nil => exact Or.inl rfl
  | cons a t ih =>
    by_cases h : p a = true
    · rw [List.dropWhile_cons, if_pos h]
      exact ih
    · refine Or.inr ⟨a, t, ?_, by simpa using h⟩
      rw [List.dropWhile_cons, if_neg h]

theorem dropWhile_dropWhile {α : Type} (p : α → Bool) (l : List α) :
    (l.dropWhile p).dropWhile p = l.dropWhile p := by
  rcases dropWhile_head_or_nil p l with h | ⟨a, t, heq, hpa⟩
  · rw [h]
    rfl
  · rw [heq, List.dropWhile_cons, if_neg (by simp [hpa])]

theorem mem_stripChars {c : Char} {l : List Char} (h : c ∈ stripChars l) : c ∈ l := by
  unfold stripChars at h
  rw [List.mem_reverse] at h
  exact (List.dropWhile_sublist isSpaceChar).mem
    (List.mem_reverse.1 ((List.dropWhile_sublist isSpaceChar).mem h))

theorem stripChars_decomp (l : List Char) :
    ∃ u, l.dropWhile isSpaceChar = stripChars l ++ u := by
  obtain ⟨u, hu⟩ := List.dropWhile_suffix (l := (l.dropWhile isSpaceChar).reverse) isSpaceChar
  refine ⟨u.reverse, ?_⟩
  have := congrArg List.reverse hu
  rw [List.reverse_append, List.reverse_reverse] at this
  exact this.symm

theorem dropWhile_stripChars (l : List Char) :
    (stripChars l).dropWhile isSpaceChar = stripChars l := by
  rcases h : stripChars l with _ | ⟨a, t⟩
  · rfl
  · obtain ⟨u, hu⟩ := stripChars_decomp l
    rw [h] at hu
    have hpa : isSpaceChar a = false := by
      rcases dropWhile_head_or_nil isSpaceChar l with hnil | ⟨a2, t2, heq, hpa2⟩
      · rw [hnil] at hu
        exact absurd hu (by simp)
      · rw [heq] at hu
        have : a2 = a := by
          have := congrArg (fun xs => List.head? xs) hu
          simpa using this
        rw [← this]
        exact hpa2
    rw [List.dropWhile_cons, if_neg (by simp [hpa])]

theorem dropWhile_reverse_stripChars (l : List Char) :
    (stripChars l).reverse.dropWhile isSpaceChar = (stripChars l).reverse := by
  unfold stripChars
  rw [List.reverse_reverse]
  exact dropWhile_dropWhile isSpaceChar _

theorem stripChars_stripChars (l : List Char) :
    stripChars (stripChars l) = stripChars l := by
  have h1 : (stripChars l).dropWhile isSpaceChar = stripChars l := dropWhile_stripChars l
  show ((((stripChars l).dropWhile isSpaceChar).reverse).dropWhile isSpaceChar).reverse = stripChars l
  rw [h1, dropWhile_reverse_stripChars, List.reverse_reverse]

theorem mem_preprocessChars {c : Char} {l : List Char} (h : c ∈ preprocessChars l) :
    keepChar c = true ∧ Char.toLower c = c := by
  unfold preprocessChars at h
  refine ⟨List.of_mem_filter h, ?_⟩
  have h2 : c ∈ stripChars (l.map Char.toLower) := (List.mem_filter.1 h).1
  obtain ⟨c0, _, hc0⟩ := List.mem_map.1 (mem_stripChars h2)
  rw [← hc0]
  exact toLower_toLower c0

theorem preprocessChars_of_fixed {y : List Char}
    (h : ∀ c ∈ y, keepChar c = true ∧ Char.toLower c = c) :
    preprocessChars y = stripChars y := by
  unfold preprocessChars
  have hmap : y.map Char.toLower = y := by
    rw [List.map_congr_left (fun a ha => (h a ha).2)]
    exact List.map_id' y
  rw [hmap]
  exact List.filter_eq_self.2 (fun a ha => (h a (mem_stripChars ha)).1)

theorem preprocessChars_preprocessChars (l : List Char) :
    preprocessChars (preprocessChars l) = stripChars (preprocessChars l) :=
  preprocessChars_of_fixed (fun _ hc => mem_preprocessChars hc)

theorem preprocessChars_third (l : List Char) :
    preprocessChars (preprocessChars (preprocessChars l)) =
      preprocessChars (preprocessChars l) := by
  rw [preprocessChars_preprocessChars (preprocessChars l),
      preprocessChars_preprocessChars l, stripChars_stripChars]

/-- Claim C6 (amended): the normalizer is idempotent from the second
application on; a single application is not idempotent, because `strip`
runs before punctuation removal and punctuation removal can expose new
boundary whitespace. -/
theorem preprocess_idempotent_from_second (s : String) :
    preprocess_input (preprocess_input (preprocess_input s)) =
      preprocess_input (preprocess_input s) := by
  show String.mk (preprocessChars (preprocessChars (preprocessChars s.data))) =
    String.mk (preprocessChars (preprocessChars s.data))
  exact congrArg String.mk (preprocessChars_third s.data)

/-- Claim C6 (counterexample): normalization as implemented is not
idempotent; on `". a ."` the first pass yields `" a "` and the second
pass strips the exposed boundary whitespace. -/
theorem preprocess_not_idempotent_cex :
    preprocess_input (preprocess_input ". a .") ≠ preprocess_input ". a ." := by
  decide

/-- Claim C7 (amended): every character of the normalizer output is a
word character or whitespace and is fixed by lowercasing; the output is
free of leading and trailing whitespace whenever the input contains no
punctuation, but not in general, because trimming happens before
punctuation removal. -/
theorem preprocess_chars_classes_and_trim (s : String) :
    (∀ c ∈ (preprocess_input s).data, keepChar c = true ∧ Char.toLower c = c)
    ∧ ((∀ c ∈ s.data, keepChar (Char.toLower c) = true) →
        (preprocess_input s).data.dropWhile isSpaceChar = (preprocess_input s).data
        ∧ (preprocess_input s).data.reverse.dropWhile isSpaceChar =
            (preprocess_input s).data.reverse) := by
  constructor
  · exact fun _ hc => mem_preprocessChars hc
  · intro hnp
    have hfix : preprocessChars s.data = stripChars (s.data.map Char.toLower) := by
      unfold preprocessChars
      refine List.filter_eq_self.2 (fun a ha => ?_)
      obtain ⟨c0, hc0mem, hc0⟩ := List.mem_map.1 (mem_stripChars ha)
      rw [← hc0]
      exact hnp c0 hc0mem
    have hd : (preprocess_input s).data = stripChars (s.data.map Char.toLower) := hfix
    rw [hd]
    exact ⟨dropWhile_stripChars _, dropWhile_reverse_stripChars _⟩

/-- Claim C7 (witness): on the punctuation-free input `" Hi "` the
normalized output has no leading whitespace. -/
theorem preprocess_trim_witness :
    (preprocess_input " Hi ").data.dropWhile isSpaceChar =
      (preprocess_input " Hi ").data :=
  ((preprocess_chars_classes_and_trim " Hi ").2 (by decide)).1

/-- Claim C7 (counterexample): on `". a ."` the normalizer returns `" a "`,
which begins with whitespace, refuting the unconditional trimming claim. -/
theorem preprocess_leading_ws_cex :
    preprocess_input ". a ." = " a "
    ∧ (preprocess_input ". a .").data.dropWhile isSpaceChar ≠
        (preprocess_input ". a .").data := by
  decide

theorem table_entries_ok :
    ∀ kv ∈ intents, kv.1 ≠ "unknown" ∧ (generate_response kv.1).isSome = true := by
  decide

theorem keys_nodup : (intents.map Prod.fst).Nodup := by decide

theorem eq_of_nodup_keys {l : List (String × IntentData)}
    (hnd : (l.map Prod.fst).Nodup) {k : String} {a b : IntentData}
    (ha : (k, a) ∈ l) (hb : (k, b) ∈ l) : a = b := by
  induction l with
  | nil => cases ha
  | cons hd tl ih =>
    rw [List.map_cons, List.nodup_cons] at hnd
    rcases List.mem_cons.1 ha with ha0 | ha1
    · rcases List.mem_cons.1 hb with hb0 | hb1
      · exact congrArg Prod.snd (ha0.trans hb0.symm)
      · exfalso
        apply hnd.1
        rw [← ha0]
        exact List.mem_map.2 ⟨(k, b), hb1, rfl⟩
    · rcases List.mem_cons.1 hb with hb0 | hb1
      · exfalso
        apply hnd.1
        rw [← hb0]
        exact List.mem_map.2 ⟨(k, a), ha1, rfl⟩
      · exact ih hnd.2 ha1 hb1

theorem lookup_responses (k : String) (d : IntentData) (hmem : (k, d) ∈ intents) :
    generate_response k = d.responses.head? := by
  have hk : k ≠ "unknown" := (table_entries_ok (k, d) hmem).1
  unfold generate_response
  rw [if_neg hk]
  have hsome : (intents.find? (fun kv => kv.1 == k)).isSome :=
    List.find?_isSome.2 ⟨(k, d), hmem, by simp⟩
  obtain ⟨kv, hfind⟩ := Option.isSome_iff_exists.1 hsome
  rw [hfind]
  have hk1 : kv.1 = k := by simpa using List.find?_some hfind
  have hkv : (k, kv.2) ∈ intents := by
    rw [← hk1]
    simpa using List.mem_of_find?_eq_some hfind
  show kv.2.responses.head? = d.responses.head?
  rw [eq_of_nodup_keys keys_nodup hkv hmem]

theorem identify_intent_unknown_of_nomatch (s : String)
    (h : ∀ kv ∈ intents, intentMatches s kv.2 = false) :
    identify_intent s = "unknown" := by
  unfold identify_intent
  rw [List.find?_eq_none.2 (fun kv hkv => by simp [h kv hkv])]

theorem find?_first_index {α : Type} (p : α → Bool) :
    ∀ (l : List α) (n : Nat) (hn : n < l.length),
      p (l.get ⟨n, hn⟩) = true →
      (∀ m (hm : m < n), p (l.get ⟨m, Nat.lt_trans hm hn⟩) = false) →
      l.find? p = some (l.get ⟨n, hn⟩)
  | [], n, hn, _, _ => absurd hn (by simp)
  | a :: t, 0, _, hp, _ => by
      show List.find? p (a :: t) = some a
      exact List.find?_cons_of_pos _ hp
  | a :: t, n + 1, hn, hp, hb => by
      have hpa : p a = false := hb 0 (Nat.succ_pos n)
      rw [List.find?_cons_of_neg _ (by simp [hpa])]
      exact find?_first_index p t n (Nat.lt_of_succ_lt_succ hn) hp
        (fun m hm => hb (m + 1) (Nat.succ_lt_succ hm))

theorem identify_intent_at_index (s : String) (n : Nat) (hn : n < intents.length)
    (hp : intentMatches s ((intents.get ⟨n, hn⟩).2) = true)
    (hb : ∀ m (hm : m < n), intentMatches s ((intents.get ⟨m, Nat.lt_trans hm hn⟩).2) = false) :
    identify_intent s = (intents.get ⟨n, hn⟩).1 := by
  unfold identify_intent
  rw [find?_first_index _ intents n hn hp hb]

/-- Claim C2: `identify_intent` returns the key of the first intent in the
fixed table order some pattern of which occurs in the input, and the
sentinel `"unknown"` when no pattern of any intent occurs; in particular an
input containing both `"hello"` and `"github"` resolves to `greeting`. -/
theorem identify_intent_first_match_table_order :
    (∀ s, (∀ kv ∈ intents, intentMatches s kv.2 = false) →
      identify_intent s = "unknown")
    ∧ (∀ s n (hn : n < intents.length),
        intentMatches s ((intents.get ⟨n, hn⟩).2) = true →
        (∀ m (hm : m < n),
          intentMatches s ((intents.get ⟨m, Nat.lt_trans hm hn⟩).2) = false) →
        identify_intent s = (intents.get ⟨n, hn⟩).1)
    ∧ (∀ s, containsSub (preprocess_input s) "hello" = true →
        containsSub (preprocess_input s) "github" = true →
        identify_intent (preprocess_input s) = "greeting") := by
  refine ⟨fun s h => identify_intent_unknown_of_nomatch s h,
          fun s n hn hp hb => identify_intent_at_index s n hn hp hb,
          fun s hh _ => ?_⟩
  have h0 : (0 : Nat) < intents.length := by decide
  have hp : intentMatches (preprocess_input s) ((intents.get ⟨0, h0⟩).2) = true := by
    unfold intentMatches
    have hpat : (intents.get ⟨0, h0⟩).2.patterns =
        ["hello", "hi", "hey", "greetings", "good morning", "good afternoon"] := rfl
    rw [hpat]
    simp only [List.any_cons, Bool.or_eq_true]
    exact Or.inl hh
  exact identify_intent_at_index (preprocess_input s) 0 h0 hp
    (fun m hm => absurd hm (Nat.not_lt_zero m))

/-- Claim C2 (witness): `"Hello github"` normalizes to a string containing
both `"hello"` and `"github"` and is classified as `greeting`. -/
theorem identify_intent_hello_github_witness :
    containsSub (preprocess_input "Hello github") "hello" = true
    ∧ containsSub (preprocess_input "Hello github") "github" = true
    ∧ identify_intent (preprocess_input "Hello github") = "greeting" :=
  ⟨by decide, by decide,
    identify_intent_first_match_table_order.2.2 "Hello github" (by decide) (by decide)⟩

/-- Claim C1: when the normalized input matches some pattern of intent `k`
with data `d` and no pattern of any other intent, `chat` replies with the
first response of `d`, on any state. -/
theorem chat_unique_intent_first_response
    (s k : String) (d : IntentData) (st : BotState) (now : String)
    (hmem : (k, d) ∈ intents)
    (hmatch : intentMatches (preprocess_input s) d = true)
    (hothers : ∀ kv ∈ intents, kv.1 ≠ k →
      intentMatches (preprocess_input s) kv.2 = false) :
    (chat st now s).map Prod.snd = d.responses.head? := by
  have hid : identify_intent (preprocess_input s) = k := by
    unfold identify_intent
    have hsome :
        (intents.find? (fun kv => intentMatches (preprocess_input s) kv.2)).isSome :=
      List.find?_isSome.2 ⟨(k, d), hmem, hmatch⟩
    obtain ⟨kv, hfind⟩ := Option.isSome_iff_exists.1 hsome
    rw [hfind]
    show kv.1 = k
    by_contra hne
    exact absurd (List.find?_some hfind)
      (by simp [hothers kv (List.mem_of_find?_eq_some hfind) hne])
  have hresp : generate_response k = d.responses.head? := lookup_responses k d hmem
  cases hr : d.responses.head? with
  | none => simp [chat, hid, hresp, hr]
  | some r => simp [chat, hid, hresp, hr]

/-- Claim C1 (witness): `chat` on `"Hello there!"` replies with the first
greeting response. -/
theorem chat_hello_there_witness :
    (chat [] "" "Hello there!").map Prod.snd =
      some "Hello! I\x27m your AI Course Assistant. How can I help you today?" :=
  (chat_unique_intent_first_response "Hello there!" "greeting"
    ((intents.get ⟨0, by decide⟩).2) [] "" (by decide) (by decide) (by decide)).trans
    (by decide)

theorem identify_intent_total (s : String) :
    (identify_intent s = "unknown" ∨ identify_intent s ∈ intents.map Prod.fst)
    ∧ ∃ r, generate_response (identify_intent s) = some r := by
  rcases hfind : intents.find? (fun kv => intentMatches s kv.2) with _ | kv
  · have hid : identify_intent s = "unknown" := by
      unfold identify_intent
      rw [hfind]
    rw [hid]
    exact ⟨Or.inl rfl, fallbackResponse, rfl⟩
  · have hid : identify_intent s = kv.1 := by
      unfold identify_intent
      rw [hfind]
    rw [hid]
    have hkvmem := List.mem_of_find?_eq_some hfind
    exact ⟨Or.inr (List.mem_map.2 ⟨kv, hkvmem, rfl⟩),
      Option.isSome_iff_exists.1 (table_entries_ok kv hkvmem).2⟩

theorem chat_eq_append (st : BotState) (now s : String) :
    ∃ t r, chat st now s = some (st ++ [t], r) := by
  obtain ⟨r, hr⟩ := (identify_intent_total (preprocess_input s)).2
  refine ⟨{ time := now, user := s, bot := r,
            intent := identify_intent (preprocess_input s) }, r, ?_⟩
  simp [chat, hr]

theorem chatRun_length : ∀ (inputs : List (String × String)) (st : BotState),
    ∃ st2, chatRun st inputs = some st2 ∧ st2.length = st.length + inputs.length
  | [], st => ⟨st, rfl, by simp⟩
  | (now, s) :: rest, st => by
      obtain ⟨t, r, hc⟩ := chat_eq_append st now s
      obtain ⟨st2, h1, h2⟩ := chatRun_length rest (st ++ [t])
      refine ⟨st2, ?_, ?_⟩
      · show chatRun st ((now, s) :: rest) = some st2
        unfold chatRun
        rw [hc]
        exact h1
      · simp only [List.length_append, List.length_cons, List.length_nil] at h2 ⊢
        omega

theorem sumCounts_bump (counts : List (String × Nat)) (k : String) :
    sumCounts (bump counts k) = sumCounts counts + 1 := by
  induction counts with
  | nil => rfl
  | cons kv rest ih =>
    obtain ⟨k0, n⟩ := kv
    by_cases h : k0 = k
    · simp only [bump, if_pos h, sumCounts, List.map_cons, List.sum_cons]
      omega
    · simp only [bump, if_neg h, sumCounts, List.map_cons, List.sum_cons] at ih ⊢
      omega

theorem sumCounts_fold (l : List Turn) : ∀ acc : List (String × Nat),
    sumCounts (l.foldl (fun a t => bump a t.intent) acc) = sumCounts acc + l.length := by
  induction l with
  | nil =>
    intro acc
    simp
  | cons t rest ih =>
    intro acc
    simp only [List.foldl_cons, List.length_cons]
    rw [ih (bump acc t.intent), sumCounts_bump]
    omega

/-- Claim C3: after any sequence of N `chat` calls on a fresh responder,
`get_statistics` reports `total_messages = N` and the counts in the intent
distribution also sum to N. -/
theorem get_statistics_total_and_distribution_sum (inputs : List (String × String)) :
    ∃ st, chatRun [] inputs = some st
      ∧ (get_statistics st).1 = inputs.length
      ∧ sumCounts (get_statistics st).2 = inputs.length := by
  obtain ⟨st, h1, h2⟩ := chatRun_length inputs []
  refine ⟨st, h1, ?_, ?_⟩
  · simpa [get_statistics] using h2
  · show sumCounts (st.foldl (fun a t => bump a t.intent) []) = inputs.length
    rw [sumCounts_fold st []]
    simpa [sumCounts] using h2

/-- Claim C4: the intent matcher only ever returns a key of the table or
the sentinel `"unknown"`, so the table lookup in the response selector
always succeeds (its error branch is unreachable). -/
theorem identify_intent_known_key_and_lookup_total (s : String) :
    (identify_intent s = "unknown" ∨ identify_intent s ∈ intents.map Prod.fst)
    ∧ ∃ r, generate_response (identify_intent s) = some r :=
  identify_intent_total s

/-- Claim C5: `chat` on the empty string raises no error; it appends exactly
one `unknown` Turn and returns the fixed fallback reply. -/
theorem chat_empty_string_fallback (st : BotState) (now : String) :
    chat st now "" =
      some (st ++ [{ time := now, user := "", bot := fallbackResponse,
                     intent := "unknown" }], fallbackResponse) := rfl

/-- Claim C9: every `chat` call, on any state and input, appends exactly one
Turn to the log and leaves all earlier entries unchanged. -/
theorem chat_appends_exactly_one_turn (st : BotState) (now s : String) :
    ∃ t r, chat st now s = some (st ++ [t], r)
      ∧ (st ++ [t]).length = st.length + 1 := by
  obtain ⟨t, r, h⟩ := chat_eq_append st now s
  exact ⟨t, r, h, by simp⟩

/-- Claim C10: the reply of `chat` depends only on the input string of the
call, not on the accumulated history or the timestamp. -/
theorem chat_reply_independent_of_history
    (st1 st2 : BotState) (now1 now2 s : String) :
    (chat st1 now1 s).map Prod.snd = (chat st2 now2 s).map Prod.snd := by
  rcases h : generate_response (identify_intent (preprocess_input s)) with _ | r <;>
    simp [chat, h]

set_option maxRecDepth 16000 in
/-- Claim C8 (counterexample): `"Tell me about DAI011"` normalizes to a
string containing no pattern of any intent (the course pattern is the full
phrase `"what is dai011"`, not `"dai011"`), so `chat` classifies it as
`unknown` and returns the fallback, not the DAI011 description. -/
theorem chat_tell_me_about_dai011_cex :
    identify_intent (preprocess_input "Tell me about DAI011") = "unknown"
    ∧ (chat [] "" "Tell me about DAI011").map Prod.snd = some fallbackResponse
    ∧ fallbackResponse ≠ "DAI011: Programming for AI is a course that teaches Python programming fundamentals with a focus on AI and ML applications. You\x27ll learn data handling, basic algorithms, and how to use AI libraries." :=
  ⟨by decide, by decide, by decide⟩

set_option maxRecDepth 16000 in
/-- Claim C8 (amended): `chat "What is DAI011?"` classifies the input as
`course_info` (its normalization contains the pattern `"what is dai011"`)
and returns the DAI011 description. -/
theorem chat_what_is_dai011_course_info (st : BotState) (now : String) :
    identify_intent (preprocess_input "What is DAI011?") = "course_info"
    ∧ (chat st now "What is DAI011?").map Prod.snd =
        some "DAI011: Programming for AI is a course that teaches Python programming fundamentals with a focus on AI and ML applications. You\x27ll learn data handling, basic algorithms, and how to use AI libraries." :=
  ⟨by decide, rfl⟩

end Chatbot
